import Mathlib

/-!
Verification of the create-it project-scaffolding extension.

The development shallowly embeds the repository's catalog store
(`SidebarProvider.saveTemplates`, `loadTemplates`), the project-name
validation and path resolution, the destination-conflict handling, the
materialization pipeline of `createProjectFromTemplate`, the streaming
output handler of `execStreamAsync`, and the sidebar `addTemplateForm`
flow, and proves the specified properties about them.

JavaScript strings are embedded as `String` (or `List Char` where the
code manipulates them character-wise), the JSON documents the runtime
parses as the `Json` inductive, the filesystem as an association list
of paths to file contents, and child processes as oracles recording
their exit and their streamed output chunks.
-/

namespace CreateIt

/-- JSON-equivalent document values: the result of the JavaScript
runtime's JSON.parse on the persisted templates file or on a candidate
document sent by the sidebar webview. -/
inductive Json where
  | null : Json
  | bool : Bool → Json
  | num : Int → Json
  | str : String → Json
  | arr : List Json → Json
  | obj : List (String × Json) → Json
  deriving Repr

/-- An author entry of a template record (`TAuthor` in src types). -/
structure Author where
  name : String
  url : String
  deriving Repr, DecidableEq

/-- One template record (`TTemplate` in src types): `repository` embeds the
source field `git-repository` and `postInstall` the field `post-install`. -/
structure Template where
  description : String
  homepage : String
  authors : List Author
  repository : String
  postInstall : String
  deriving Repr, DecidableEq

/-- A category of the catalog: template name to template record, in
insertion order (`TTemplates` maps names to `TTemplate`). -/
abbrev CategoryMap := List (String × Template)

/-- The catalog: category name to category mapping, in insertion order. -/
abbrev Catalog := List (String × CategoryMap)

/-- Serialization of an author entry to its JSON document form. -/
def encodeAuthor (a : Author) : Json :=
  Json.obj [("name", Json.str a.name), ("url", Json.str a.url)]

/-- Serialization of a template record to the documented file shape with
keys description, homepage, authors, git-repository, post-install. -/
def encodeTemplate (t : Template) : Json :=
  Json.obj
    [("description", Json.str t.description),
     ("homepage", Json.str t.homepage),
     ("authors", Json.arr (t.authors.map encodeAuthor)),
     ("git-repository", Json.str t.repository),
     ("post-install", Json.str t.postInstall)]

/-- Serialization of a whole catalog to its JSON document form. -/
def encodeCatalog (c : Catalog) : Json :=
  Json.obj (c.map fun p => (p.1, Json.obj (p.2.map fun q => (q.1, encodeTemplate q.2))))

/-- Reading an author entry back from its JSON form. -/
def decodeAuthor : Json → Option Author
  | Json.obj [("name", Json.str n), ("url", Json.str u)] => some ⟨n, u⟩
  | _ => none

/-- Reading a list of author entries back from their JSON forms. -/
def decodeAuthors : List Json → Option (List Author)
  | [] => some []
  | j :: js =>
    match decodeAuthor j, decodeAuthors js with
    | some a, some as => some (a :: as)
    | _, _ => none

/-- Reading a template record back from its JSON form. -/
def decodeTemplate : Json → Option Template
  | Json.obj
      [("description", Json.str d),
       ("homepage", Json.str h),
       ("authors", Json.arr as),
       ("git-repository", Json.str r),
       ("post-install", Json.str p)] =>
    match decodeAuthors as with
    | some auths => some ⟨d, h, auths, r, p⟩
    | none => none
  | _ => none

/-- Reading a category mapping back from its JSON object fields. -/
def decodeTemplates : List (String × Json) → Option CategoryMap
  | [] => some []
  | (n, j) :: rest =>
    match decodeTemplate j, decodeTemplates rest with
    | some t, some ts => some ((n, t) :: ts)
    | _, _ => none

/-- Reading one category value back: it must be a JSON object of
template records. -/
def decodeCategory : Json → Option CategoryMap
  | Json.obj entries => decodeTemplates entries
  | _ => none

/-- Reading the catalog back from the JSON object fields of the document. -/
def decodeCategories : List (String × Json) → Option Catalog
  | [] => some []
  | (c, j) :: rest =>
    match decodeCategory j, decodeCategories rest with
    | some ts, some cs => some ((c, ts) :: cs)
    | _, _ => none

/-- Reading the catalog back from a JSON document. -/
def decodeCatalog : Json → Option Catalog
  | Json.obj entries => decodeCategories entries
  | _ => none

/-- Content of the persisted templates file, abstracted by whether the
runtime's JSON.parse succeeds on it: `wellFormed j` stands for text that
parses to the document `j`, and `malformed raw` for text on which
JSON.parse throws. -/
inductive FileContent where
  | wellFormed : Json → FileContent
  | malformed : String → FileContent
  deriving Repr

/-- Outcome reported by the sidebar save handler: the success message or
the caught-error message. -/
inductive SaveOutcome where
  | saved : SaveOutcome
  | saveError : SaveOutcome
  deriving Repr, DecidableEq

/-- The `SidebarProvider.saveTemplates` handler: it parses the candidate
text as its only validation, writes the candidate text over the file when
parsing succeeds, and on a parse throw reports an error without writing. -/
def saveTemplates (persisted : FileContent) (candidate : FileContent) :
    FileContent × SaveOutcome :=
  match candidate with
  | FileContent.wellFormed j => (FileContent.wellFormed j, SaveOutcome.saved)
  | FileContent.malformed _ => (persisted, SaveOutcome.saveError)

/-- Result of `loadTemplates`: the returned document and whether the
error path (showErrorMessage plus an empty-object return) was taken. -/
structure LoadResult where
  catalog : Json
  errorShown : Bool
  deriving Repr

/-- The `loadTemplates` function of src utils: it reads and parses the
persisted file, and on any read or parse throw it catches the error,
shows a message, and returns the empty catalog object. -/
def loadTemplates : FileContent → LoadResult
  | FileContent.wellFormed j => ⟨j, false⟩
  | FileContent.malformed _ => ⟨Json.obj [], true⟩

/-- Structural validity of a candidate catalog document, stated from the
specification: every category maps to a mapping of template records and
every template has a non-empty repository. The source performs no such
check; this definition exists to state the claim that it does. -/
def specStructurallyValid (j : Json) : Bool :=
  match j with
  | Json.obj cats =>
    cats.all fun c =>
      match c.2 with
      | Json.obj temps =>
        temps.all fun t =>
          match decodeTemplate t.2 with
          | some tm => tm.repository ≠ ""
          | none => false
      | _ => false
  | _ => false

/-- Validity of a catalog value, per the invariant of the data model:
every template has a non-empty repository. -/
def catalogValid (c : Catalog) : Bool :=
  c.all fun p => p.2.all fun q => q.2.repository ≠ ""

/-- A parseable but structurally invalid candidate document: its single
template has an empty repository field. -/
def invalidCandidate : Json :=
  Json.obj [("node", Json.obj [("broken", encodeTemplate ⟨"d", "", [], "", ""⟩)])]

/-- A small valid catalog used as a concrete witness input. -/
def demoCatalog : Catalog :=
  [("python",
    [("flask-api",
      ⟨"Flask API starter", "", [⟨"Custom", ""⟩], "https://example.com/flask.git",
       "npm install"⟩)])]

/-- Whitespace characters removed by the JavaScript String.trim used in
the source (space, tab, line feed, vertical tab, form feed, carriage
return, no-break space, byte order mark). -/
def isJsSpace (c : Char) : Bool :=
  c.toNat = 32 || c.toNat = 9 || c.toNat = 10 || c.toNat = 11 ||
  c.toNat = 12 || c.toNat = 13 || c.toNat = 160 || c.toNat = 65279

/-- Trimming of surrounding whitespace, the character-list model of the
JavaScript trim applied to log lines and to the project-name check. -/
def trimChars (l : List Char) : List Char :=
  ((l.dropWhile isJsSpace).reverse.dropWhile isJsSpace).reverse

/-- Characters accepted by the project-name pattern of the source, the
character class of the regular expression with lowercase and uppercase
letters, digits, hyphen, and underscore. -/
def isNameChar (c : Char) : Bool :=
  (97 ≤ c.toNat && c.toNat ≤ 122) || (65 ≤ c.toNat && c.toNat ≤ 90) ||
  (48 ≤ c.toNat && c.toNat ≤ 57) || c.toNat = 45 || c.toNat = 95

/-- The regular-expression test of the source's validateInput callback:
the anchored pattern holds exactly of non-empty strings whose characters
all lie in the name-character class. -/
def regexTest (v : String) : Bool :=
  !v.data.isEmpty && v.data.all isNameChar

/-- The validateInput callback of the project-name input box in
`createProjectFromTemplate`: an error message for a rejected name, none
for an accepted one. The first branch embeds the JavaScript falsiness
and emptiness-after-trim check, the second the regular-expression test. -/
def validateProjectName (v : String) : Option String :=
  if v = "" ∨ trimChars v.data = [] then
    some "Project name cannot be empty"
  else if regexTest v = false then
    some "Project name can only contain letters, numbers, hyphens, and underscores"
  else none

/-- Resolution of the destination directory: the posix path join of the
chosen base path and an accepted project name; no path for a rejected
name, since the input box only returns validated values. -/
def resolveProjectPath (base v : String) : Option String :=
  match validateProjectName v with
  | none => some (base ++ "/" ++ v)
  | some _ => none

/-- Splitting a character list at newline characters, the model of the
JavaScript split used on the buffered process output; like the source
split it yields one more segment than there are newlines, so it never
returns an empty list. -/
def splitNl : List Char → List (List Char)
  | [] => [[]]
  | c :: cs =>
    if c = '\n' then [] :: splitNl cs
    else
      match splitNl cs with
      | [] => [[c]]
      | l :: ls => (c :: l) :: ls

/-- Trimming and dropping of whitespace-only segments, the treatment the
stdout and stderr handlers apply to every segment they log. -/
def cleanLines (parts : List (List Char)) : List (List Char) :=
  (parts.map trimChars).filter fun l => !l.isEmpty

/-- All segments of a split except the final one: the completed lines
the data handler logs immediately. -/
def initSegs : List (List Char) → List (List Char)
  | [] => []
  | [_] => []
  | l :: l2 :: ls => l :: initSegs (l2 :: ls)

/-- The final segment of a split: the possibly-incomplete line the data
handler keeps buffered (the popped element of the source split). -/
def lastSeg : List (List Char) → List Char
  | [] => []
  | [l] => l
  | _ :: l2 :: ls => lastSeg (l2 :: ls)

/-- One firing of the data handler of `execStreamAsync`: the chunk is
appended to the pending buffer, the buffer is split at newlines, the
final possibly-incomplete segment becomes the new buffer, and every
completed segment is logged trimmed when it is not whitespace-only. -/
def onData (buffer chunk : List Char) : List Char × List (List Char) :=
  (lastSeg (splitNl (buffer ++ chunk)),
   cleanLines (initSegs (splitNl (buffer ++ chunk))))

/-- Folding the data handler over the chunks a child process emits,
starting from the given buffer; returns the final buffer and the lines
logged along the way. -/
def feedChunks : List Char → List (List Char) → List Char × List (List Char)
  | buf, [] => (buf, [])
  | buf, chunk :: rest =>
    ((feedChunks (onData buf chunk).1 rest).1,
     (onData buf chunk).2 ++ (feedChunks (onData buf chunk).1 rest).2)

/-- The close handler flush of `execStreamAsync`: remaining buffer
content is logged trimmed when it is not whitespace-only. -/
def onClose (buffer : List Char) : List (List Char) :=
  if (trimChars buffer).isEmpty then [] else [trimChars buffer]

/-- All lines one output stream of an `execStreamAsync` run forwards to
the log: the lines emitted while the data events arrive followed by the
close-time flush of the pending buffer. -/
def streamedLines (chunks : List (List Char)) : List (List Char) :=
  (feedChunks [] chunks).2 ++ onClose (feedChunks [] chunks).1

/-- Gluing a pending segment onto the head of a later split: the helper
describing how splitting a concatenation relates to the two splits. -/
def glueHead (x : List Char) : List (List Char) → List (List Char)
  | [] => [x]
  | h :: t => (x ++ h) :: t

/-- Outcome of one child process: either it spawned and exited with the
given code after streaming the given stdout chunks, or it failed to
spawn with an error message. -/
inductive ExecOutcome where
  | exited : Nat → List (List Char) → ExecOutcome
  | spawnError : String → ExecOutcome
  deriving Repr

/-- The rejection message `execStreamAsync` produces for a process, if
any: the spawn error is surfaced verbatim, and a non-zero exit code is
reported in the exit-code message; a zero exit resolves. -/
def ExecOutcome.errMsg : ExecOutcome → Option String
  | ExecOutcome.exited code _ =>
    if code = 0 then none else some ("Command exited with code " ++ toString code)
  | ExecOutcome.spawnError m => some m

/-- The lines an `execStreamAsync` run of this process forwards to the
log sink. -/
def ExecOutcome.logLines : ExecOutcome → List (List Char)
  | ExecOutcome.exited _ chunks => streamedLines chunks
  | ExecOutcome.spawnError _ => []

/-- Filesystem and process effects the pipeline performs, in order: a
recursive directory removal or a shell command run in a working
directory. -/
inductive Event where
  | removeDir : String → Event
  | execCmd : String → String → Event
  deriving Repr, DecidableEq

/-- Outcome of one pipeline step. -/
inductive StepOutcome where
  | ok : StepOutcome
  | failed : String → StepOutcome
  deriving Repr, DecidableEq

/-- One entry of the step log of a materialization run; the Boolean of
the history-strip entry records whether a version-control directory was
found and removed. -/
inductive StepEntry where
  | cloning : StepOutcome → StepEntry
  | strippingHistory : Bool → StepEntry
  | installing : StepOutcome → StepEntry
  | installSkipped : StepEntry
  deriving Repr, DecidableEq

/-- Overall status of a materialization run. -/
inductive Status where
  | Success : Status
  | PartialSuccess : Status
  | Failed : Status
  | Aborted : Status
  deriving Repr, DecidableEq

/-- Inputs of one materialization run of `createProjectFromTemplate`,
resolved before the pipeline starts: the selected template, the
validated project name, the chosen base directory, whether the
destination already exists, the user's answer to the overwrite prompt,
and the oracles for the clone process, the presence of the cloned
version-control directory, and the install process. -/
structure RunEnv where
  template : Template
  projectName : String
  projectPath : String
  destExists : Bool
  overwriteAnswer : Bool
  cloneExec : ExecOutcome
  gitDirExists : Bool
  installExec : ExecOutcome
  deriving Repr

/-- The destination directory, the posix join of base path and name. -/
def RunEnv.fullProjectPath (e : RunEnv) : String :=
  e.projectPath ++ "/" ++ e.projectName

/-- The clone command line the pipeline runs. -/
def RunEnv.cloneCmd (e : RunEnv) : String :=
  "git clone " ++ e.template.repository ++ " " ++ e.projectName

/-- The version-control metadata directory inside the cloned project. -/
def RunEnv.gitPath (e : RunEnv) : String :=
  e.fullProjectPath ++ "/.git"

/-- Observable outcome of one materialization run: the ordered step log,
the ordered effect trace, the error the pipeline throws to its caller if
any, whether the cloned project directory exists at the end, whether the
run was aborted at the overwrite prompt, and the lines the install
process streamed to the log. -/
structure RunResult where
  stepLog : List StepEntry
  events : List Event
  thrown : Option String
  dirExists : Bool
  aborted : Bool
  installLines : List (List Char)
  deriving Repr

/-- The materialization pipeline of `createProjectFromTemplate` from the
destination-conflict check onward: an existing destination aborts when
the user declines to overwrite and is removed recursively when the user
accepts; then the clone runs, a clone failure is rethrown as the
create-failure error and ends the run; on clone success the
version-control directory is removed when present, and the post-install
command runs only when non-empty, its failure being caught, logged, and
not rethrown. -/
def createProjectFromTemplate (env : RunEnv) : RunResult :=
  if env.destExists && !env.overwriteAnswer then
    ⟨[], [], none, true, true, []⟩
  else
    let preEvents := if env.destExists then [Event.removeDir env.fullProjectPath] else []
    let cloneEvents := preEvents ++ [Event.execCmd env.cloneCmd env.projectPath]
    match env.cloneExec.errMsg with
    | some msg =>
      ⟨[StepEntry.cloning (StepOutcome.failed msg)], cloneEvents,
       some ("Failed to create project: " ++ msg), false, false, []⟩
    | none =>
      let stripEvents := if env.gitDirExists then [Event.removeDir env.gitPath] else []
      let baseLog := [StepEntry.cloning StepOutcome.ok,
                      StepEntry.strippingHistory env.gitDirExists]
      let baseEvents := cloneEvents ++ stripEvents
      if env.template.postInstall = "" then
        ⟨baseLog ++ [StepEntry.installSkipped], baseEvents, none, true, false, []⟩
      else
        let instEvents :=
          baseEvents ++ [Event.execCmd env.template.postInstall env.fullProjectPath]
        match env.installExec.errMsg with
        | some msg =>
          ⟨baseLog ++ [StepEntry.installing (StepOutcome.failed msg)], instEvents,
           none, true, false, env.installExec.logLines⟩
        | none =>
          ⟨baseLog ++ [StepEntry.installing StepOutcome.ok], instEvents,
           none, true, false, env.installExec.logLines⟩

/-- Whether the step log records a failed install step. -/
def hasFailedInstall (log : List StepEntry) : Bool :=
  log.any fun e =>
    match e with
    | StepEntry.installing (StepOutcome.failed _) => true
    | _ => false

/-- Status read off from the observable outcome of a run: a run stopped
at the overwrite prompt is aborted, a propagated error is a failure, a
completed run with a failed install entry in its log is a partial
success, and a completed clean run is a success. -/
def RunResult.status (r : RunResult) : Status :=
  if r.aborted then Status.Aborted
  else if r.thrown.isSome then Status.Failed
  else if hasFailedInstall r.stepLog then Status.PartialSuccess
  else Status.Success

/-- Whether an effect is a child-process run. -/
def isExecEvent : Event → Bool
  | Event.execCmd _ _ => true
  | Event.removeDir _ => false

/-- The filesystem as an association list of file paths to contents. -/
abbrev FS := List (String × String)

/-- Whether the first character list is an initial run of the second. -/
def leadsWith : List Char → List Char → Bool
  | [], _ => true
  | _ :: _, [] => false
  | a :: as, b :: bs => a = b && leadsWith as bs

/-- Whether a file path lies at or below a directory path. -/
def underPath (dir p : String) : Bool :=
  p = dir || leadsWith (dir ++ "/").data p.data

/-- The existsSync check on a destination: the destination exists when
some file lies at or below it. -/
def existsPath (fs : FS) (p : String) : Bool :=
  fs.any fun e => underPath p e.1

/-- The recursive rmSync: every file at or below the path is removed. -/
def rmTree (fs : FS) (p : String) : FS :=
  fs.filter fun e => !underPath p e.1

/-- The user's decision at the overwrite prompt, as a policy: declining
aborts, accepting overwrites. -/
inductive OverwritePolicy where
  | abort : OverwritePolicy
  | overwrite : OverwritePolicy
  deriving Repr, DecidableEq

/-- Outcome of preparing the destination. -/
inductive PrepOutcome where
  | prepared : PrepOutcome
  | destinationExists : PrepOutcome
  deriving Repr, DecidableEq

/-- The destination-conflict section of `createProjectFromTemplate` over
the filesystem model: when the destination exists, declining the
overwrite prompt returns without touching the filesystem, and accepting
removes the destination tree recursively before the pipeline proceeds. -/
def prepareDestination (fs : FS) (dst : String) (policy : OverwritePolicy) :
    FS × PrepOutcome :=
  if existsPath fs dst then
    match policy with
    | OverwritePolicy.abort => (fs, PrepOutcome.destinationExists)
    | OverwritePolicy.overwrite => (rmTree fs dst, PrepOutcome.prepared)
  else (fs, PrepOutcome.prepared)

/-- The five results of the input boxes of the sidebar add-template
flow; none stands for a cancelled prompt. -/
structure FormInputs where
  category : Option String
  name : Option String
  description : Option String
  repo : Option String
  postInstall : Option String
  deriving Repr, DecidableEq

/-- JavaScript falsiness of an input-box result: undefined from a
cancelled prompt, or the empty string. -/
def jsFalsy : Option String → Bool
  | none => true
  | some s => decide (s = "")

/-- Whether any of the five prompted fields is falsy, in which case the
flow returns before reading or writing the file. -/
def anyFieldFalsy (inp : FormInputs) : Bool :=
  jsFalsy inp.category || jsFalsy inp.name || jsFalsy inp.description ||
  jsFalsy inp.repo || jsFalsy inp.postInstall

/-- JavaScript truthiness of a parsed JSON value. -/
def jsTruthy : Json → Bool
  | Json.null => false
  | Json.bool b => b
  | Json.num n => decide (n ≠ 0)
  | Json.str s => decide (s ≠ "")
  | Json.arr _ => true
  | Json.obj _ => true

/-- Outcome of the add-template flow: a prompt was cancelled or empty, or
the read-modify-write failed without persisting a template, or the
template was written. -/
inductive AddOutcome where
  | cancelled : AddOutcome
  | failed : AddOutcome
  | added : AddOutcome
  deriving Repr, DecidableEq

/-- Property lookup on a JSON object's field list. -/
def lookupStr : List (String × Json) → String → Option Json
  | [], _ => none
  | e :: rest, k => if e.1 = k then some e.2 else lookupStr rest k

/-- Property assignment on a JSON object's field list: an existing key
keeps its position and gets the new value, a new key is appended. -/
def assocSet : List (String × Json) → String → Json → List (String × Json)
  | [], k, v => [(k, v)]
  | e :: rest, k, v => if e.1 = k then (k, v) :: rest else e :: assocSet rest k v

/-- The template record the add-template flow builds from the prompted
fields: empty homepage and the fixed Custom author. -/
def newTemplate (inp : FormInputs) : Template :=
  ⟨inp.description.getD "", "", [⟨"Custom", ""⟩], inp.repo.getD "",
   inp.postInstall.getD ""⟩

/-- The `SidebarProvider.addTemplateForm` flow: each prompted field is
checked for falsiness in order and any falsy field returns before the
file is read; then the persisted file is read and parsed (a parse throw
propagates without writing), a falsy category value is replaced by a
fresh object while a truthy non-object category value makes the
strict-mode property assignment throw without persisting a template,
and the new template is inserted and the document written back. -/
def addTemplateForm (inp : FormInputs) (persisted : FileContent) :
    FileContent × AddOutcome :=
  if anyFieldFalsy inp then (persisted, AddOutcome.cancelled)
  else
    match persisted with
    | FileContent.malformed raw => (FileContent.malformed raw, AddOutcome.failed)
    | FileContent.wellFormed (Json.obj entries) =>
      let cat := inp.category.getD ""
      let tmpl := encodeTemplate (newTemplate inp)
      match lookupStr entries cat with
      | some (Json.obj temps) =>
        (FileContent.wellFormed
          (Json.obj (assocSet entries cat
            (Json.obj (assocSet temps (inp.name.getD "") tmpl)))),
         AddOutcome.added)
      | some v =>
        if jsTruthy v then (FileContent.wellFormed (Json.obj entries), AddOutcome.failed)
        else
          (FileContent.wellFormed
            (Json.obj (assocSet entries cat
              (Json.obj (assocSet [] (inp.name.getD "") tmpl)))),
           AddOutcome.added)
      | none =>
        (FileContent.wellFormed
          (Json.obj (assocSet entries cat
            (Json.obj (assocSet [] (inp.name.getD "") tmpl)))),
         AddOutcome.added)
    | FileContent.wellFormed j => (FileContent.wellFormed j, AddOutcome.failed)

/-- The template record the persisted document holds at a category and
template name, read through the documented file shape. -/
def templateAt (st : FileContent) (cat nm : String) : Option Template :=
  match st with
  | FileContent.wellFormed (Json.obj entries) =>
    match lookupStr entries cat with
    | some (Json.obj temps) =>
      match lookupStr temps nm with
      | some tj => decodeTemplate tj
      | none => none
    | _ => none
  | _ => none

/-- A concrete run whose clone succeeds and whose post-install command
exits with code 1. -/
def envInstallFail : RunEnv :=
  ⟨⟨"Express starter", "", [], "https://example.com/express.git", "false"⟩,
   "demo1", "/home/user", false, true, ExecOutcome.exited 0 [], true,
   ExecOutcome.exited 1 []⟩

/-- A concrete run whose clone exits with code 128. -/
def envCloneFail : RunEnv :=
  ⟨⟨"Express starter", "", [], "https://example.com/express.git", ""⟩,
   "demo1", "/home/user", false, true, ExecOutcome.exited 128 [], true,
   ExecOutcome.exited 0 []⟩

/-- A concrete run whose template has an empty post-install command. -/
def envSkipInstall : RunEnv :=
  ⟨⟨"Express starter", "", [], "https://example.com/express.git", ""⟩,
   "demo1", "/home/user", false, true, ExecOutcome.exited 0 [], true,
   ExecOutcome.exited 0 []⟩

/-- A concrete run against an existing destination the user accepts to
overwrite. -/
def envOverwrite : RunEnv :=
  ⟨⟨"Express starter", "", [], "https://example.com/express.git", ""⟩,
   "demo1", "/home/user", true, true, ExecOutcome.exited 0 [], false,
   ExecOutcome.exited 0 []⟩

/-- A concrete filesystem with one file inside the destination and one
outside it. -/
def fsDemo : FS :=
  [("/home/user/demo1/a.txt", "x"), ("/home/user/other.txt", "y")]

/-- Concrete add-template form inputs, all answered and non-empty. -/
def formAddInputs : FormInputs :=
  ⟨some "python", some "flask-api", some "Flask starter",
   some "https://example.com/flask.git", some "npm install"⟩

/-- Concrete add-template form inputs whose post-install answer is the
empty string. -/
def formEmptyPostInstall : FormInputs :=
  ⟨some "python", some "flask-api", some "Flask starter",
   some "https://example.com/flask.git", some ""⟩

theorem decodeAuthor_encodeAuthor (a : Author) : decodeAuthor (encodeAuthor a) = some a := rfl

theorem decodeAuthors_encode (l : List Author) :
    decodeAuthors (l.map encodeAuthor) = some l := by
  induction l with
  | nil => rfl
  | cons a as ih => simp [decodeAuthors, decodeAuthor_encodeAuthor, ih]

theorem decodeTemplate_encodeTemplate (t : Template) :
    decodeTemplate (encodeTemplate t) = some t := by
  simp [encodeTemplate, decodeTemplate, decodeAuthors_encode]

theorem decodeTemplates_encode (m : CategoryMap) :
    decodeTemplates (m.map fun q => (q.1, encodeTemplate q.2)) = some m := by
  induction m with
  | nil => rfl
  | cons q qs ih => simp [decodeTemplates, decodeTemplate_encodeTemplate, ih]

theorem decodeCatalog_encodeCatalog (c : Catalog) :
    decodeCatalog (encodeCatalog c) = some c := by
  simp only [encodeCatalog, decodeCatalog]
  induction c with
  | nil => rfl
  | cons p ps ih => simp [decodeCategories, decodeCategory, decodeTemplates_encode, ih]

/-- Claim C3 (counterexample): the save handler persists a parseable
candidate even when it is structurally invalid — a document whose only
template has an empty repository is persisted with a success outcome,
replacing the previously persisted catalog, so persistence is not
conditioned on structural validity. -/
theorem saveTemplates_accepts_invalid_doc :
    specStructurallyValid invalidCandidate = false ∧
    saveTemplates (FileContent.wellFormed (Json.obj []))
        (FileContent.wellFormed invalidCandidate)
      = (FileContent.wellFormed invalidCandidate, SaveOutcome.saved) :=
  ⟨rfl, rfl⟩

/-- Claim C3 (amended): the save handler's only gate is parseability — a
parseable candidate is persisted unconditionally with a success outcome
regardless of structural validity, and an unparseable candidate leaves
the previously persisted catalog unchanged and reports an error. -/
theorem saveTemplates_parse_gate (persisted : FileContent) (j : Json) (raw : String) :
    saveTemplates persisted (FileContent.wellFormed j)
      = (FileContent.wellFormed j, SaveOutcome.saved) ∧
    saveTemplates persisted (FileContent.malformed raw)
      = (persisted, SaveOutcome.saveError) :=
  ⟨rfl, rfl⟩

/-- Claim C5: loading a malformed persisted file does not throw to the
caller — the parse error is caught, an error message is shown, and the
empty catalog is returned. -/
theorem loadTemplates_malformed_degrades (raw : String) :
    loadTemplates (FileContent.malformed raw) = ⟨Json.obj [], true⟩ ∧
    decodeCatalog (loadTemplates (FileContent.malformed raw)).catalog = some [] :=
  ⟨rfl, rfl⟩

/-- Claim C8: loading after saving a structurally valid catalog returns
a catalog structurally equal to the one saved, with no load error. -/
theorem load_after_save_roundtrip (persisted : FileContent) (c : Catalog)
    (_hv : catalogValid c = true) :
    decodeCatalog (loadTemplates
        (saveTemplates persisted (FileContent.wellFormed (encodeCatalog c))).1).catalog
      = some c ∧
    (loadTemplates
        (saveTemplates persisted (FileContent.wellFormed (encodeCatalog c))).1).errorShown
      = false :=
  ⟨decodeCatalog_encodeCatalog c, rfl⟩

/-- Witness for the round-trip theorem at a concrete valid catalog. -/
theorem load_after_save_roundtrip_witness :
    catalogValid demoCatalog = true ∧
    decodeCatalog (loadTemplates
        (saveTemplates (FileContent.wellFormed (Json.obj []))
          (FileContent.wellFormed (encodeCatalog demoCatalog))).1).catalog
      = some demoCatalog :=
  ⟨by decide,
   (load_after_save_roundtrip (FileContent.wellFormed (Json.obj [])) demoCatalog
     (by decide)).1⟩

theorem isEmpty_false_iff {α : Type} (l : List α) : l.isEmpty = false ↔ l ≠ [] := by
  cases l <;> simp

theorem dropWhile_all_false {α : Type} (p : α → Bool) (l : List α)
    (h : ∀ c ∈ l, p c = false) : l.dropWhile p = l := by
  cases l with
  | nil => rfl
  | cons a as =>
    rw [List.dropWhile_cons]
    simp [h a (List.mem_cons_self a as)]

theorem isNameChar_not_space (c : Char) (h : isNameChar c = true) : isJsSpace c = false := by
  simp only [isNameChar, Bool.or_eq_true, Bool.and_eq_true, decide_eq_true_eq] at h
  simp only [isJsSpace, Bool.or_eq_true, decide_eq_true_eq]
  simp only [Bool.or_eq_false_iff, decide_eq_false_iff_not]
  omega

theorem trimChars_eq_self (l : List Char) (h : ∀ c ∈ l, isJsSpace c = false) :
    trimChars l = l := by
  unfold trimChars
  rw [dropWhile_all_false _ l h,
    dropWhile_all_false _ _ (fun c hc => h c (List.mem_reverse.mp hc)),
    List.reverse_reverse]

/-- Claim C6: the project-name validation accepts exactly the strings
matching the anchored name pattern — non-empty with every character a
letter, digit, hyphen or underscore — and path resolution succeeds on
exactly the accepted names and fails on all others. -/
theorem validateProjectName_pattern (v : String) :
    (validateProjectName v = none ↔
      v.data ≠ [] ∧ ∀ c ∈ v.data, isNameChar c = true) ∧
    (validateProjectName v = none →
      ∀ base, resolveProjectPath base v = some (base ++ "/" ++ v)) ∧
    (validateProjectName v ≠ none → ∀ base, resolveProjectPath base v = none) := by
  refine ⟨⟨?_, ?_⟩, ?_, ?_⟩
  · intro h
    unfold validateProjectName at h
    by_cases h1 : v = "" ∨ trimChars v.data = []
    · rw [if_pos h1] at h
      exact absurd h (by simp)
    · rw [if_neg h1] at h
      by_cases h2 : regexTest v = false
      · rw [if_pos h2] at h
        exact absurd h (by simp)
      · have hreg : regexTest v = true := by
          cases hr : regexTest v
          · exact absurd hr h2
          · rfl
        simp only [regexTest, Bool.and_eq_true, Bool.not_eq_true', isEmpty_false_iff,
          List.all_eq_true] at hreg
        exact ⟨hreg.1, hreg.2⟩
  · rintro ⟨hne, hall⟩
    have htrim : trimChars v.data = v.data :=
      trimChars_eq_self v.data (fun c hc => isNameChar_not_space c (hall c hc))
    have hreg : regexTest v = true := by
      simp only [regexTest, Bool.and_eq_true, Bool.not_eq_true', isEmpty_false_iff,
        List.all_eq_true]
      exact ⟨hne, hall⟩
    unfold validateProjectName
    rw [if_neg, if_neg]
    · simp [hreg]
    · rintro (hv | ht)
      · exact hne (by simp [hv])
      · rw [htrim] at ht
        exact hne ht
  · intro h base
    unfold resolveProjectPath
    rw [h]
  · intro h base
    unfold resolveProjectPath
    cases hv : validateProjectName v with
    | none => exact absurd hv h
    | some m => rfl

/-- Witness for the name-validation theorem at concrete names. -/
theorem validateProjectName_pattern_witness :
    validateProjectName "demo-1" = none ∧
    resolveProjectPath "/home/user" "demo-1" = some "/home/user/demo-1" ∧
    validateProjectName "a b" ≠ none := by
  have hd := (validateProjectName_pattern "demo-1").1.mpr (by decide)
  refine ⟨hd, (validateProjectName_pattern "demo-1").2.1 hd "/home/user", ?_⟩
  intro h
  have hp := (validateProjectName_pattern "a b").1.mp h
  exact absurd (hp.2 ' ' (by decide)) (by decide)

/-- Claim C1: when the clone succeeds and the post-install command fails
(non-zero exit or spawn error), the failure does not propagate — nothing
is thrown to the caller, the cloned directory still exists, the failure
is recorded in the step log, and the status read off the run is a
partial success, distinct from both a failure and a plain success. -/
theorem install_failure_partial_success (env : RunEnv) (msg : String)
    (hAbort : (env.destExists && !env.overwriteAnswer) = false)
    (hClone : env.cloneExec.errMsg = none)
    (hInst : env.installExec.errMsg = some msg)
    (hPost : env.template.postInstall ≠ "") :
    (createProjectFromTemplate env).thrown = none ∧
    (createProjectFromTemplate env).dirExists = true ∧
    StepEntry.installing (StepOutcome.failed msg) ∈ (createProjectFromTemplate env).stepLog ∧
    (createProjectFromTemplate env).status = Status.PartialSuccess ∧
    Status.PartialSuccess ≠ Status.Failed ∧
    Status.PartialSuccess ≠ Status.Success := by
  refine ⟨?_, ?_, ?_, ?_, by simp, by simp⟩ <;>
    simp [createProjectFromTemplate, hAbort, hClone, hInst, if_neg hPost,
      RunResult.status, hasFailedInstall]

/-- Witness for the tolerated-install-failure theorem at a concrete run. -/
theorem install_failure_partial_success_witness :
    (createProjectFromTemplate envInstallFail).status = Status.PartialSuccess ∧
    (createProjectFromTemplate envInstallFail).thrown = none ∧
    (createProjectFromTemplate envInstallFail).dirExists = true := by
  have h := install_failure_partial_success envInstallFail "Command exited with code 1"
    (by decide) (by decide) (by decide) (by decide)
  exact ⟨h.2.2.2.1, h.1, h.2.1⟩

/-- Claim C2: when the clone fails (non-zero exit or spawn error), the
run fails with the clone error rethrown, the step log holds exactly the
failed clone entry — no history-strip and no install entries — and the
clone process is the only process the run ever executed, so no retry and
no later step occurred. -/
theorem clone_failure_halts_pipeline (env : RunEnv) (msg : String)
    (hAbort : (env.destExists && !env.overwriteAnswer) = false)
    (hClone : env.cloneExec.errMsg = some msg) :
    (createProjectFromTemplate env).status = Status.Failed ∧
    (createProjectFromTemplate env).thrown = some ("Failed to create project: " ++ msg) ∧
    (createProjectFromTemplate env).stepLog = [StepEntry.cloning (StepOutcome.failed msg)] ∧
    (createProjectFromTemplate env).events.filter isExecEvent
      = [Event.execCmd env.cloneCmd env.projectPath] := by
  refine ⟨?_, ?_, ?_, ?_⟩
  · simp [createProjectFromTemplate, hAbort, hClone, RunResult.status]
  · simp [createProjectFromTemplate, hAbort, hClone]
  · simp [createProjectFromTemplate, hAbort, hClone]
  · simp only [createProjectFromTemplate, hAbort, hClone, Bool.false_eq_true, if_false]
    cases hd : env.destExists <;> simp [isExecEvent]

/-- Witness for the clone-failure theorem at a concrete run whose clone
exits with code 128. -/
theorem clone_failure_halts_pipeline_witness :
    (createProjectFromTemplate envCloneFail).status = Status.Failed ∧
    (createProjectFromTemplate envCloneFail).stepLog
      = [StepEntry.cloning (StepOutcome.failed "Command exited with code 128")] := by
  have h := clone_failure_halts_pipeline envCloneFail "Command exited with code 128"
    (by decide) (by decide)
  exact ⟨h.1, h.2.2.1⟩

/-- Claim C4: when the template's post-install command is empty, the run
completes the clone and history-strip steps, skips the install step — no
process other than the clone is executed and no install log lines are
produced — and succeeds. -/
theorem empty_postinstall_skips_install (env : RunEnv)
    (hAbort : (env.destExists && !env.overwriteAnswer) = false)
    (hClone : env.cloneExec.errMsg = none)
    (hPost : env.template.postInstall = "") :
    (createProjectFromTemplate env).stepLog
      = [StepEntry.cloning StepOutcome.ok, StepEntry.strippingHistory env.gitDirExists,
         StepEntry.installSkipped] ∧
    (createProjectFromTemplate env).events.filter isExecEvent
      = [Event.execCmd env.cloneCmd env.projectPath] ∧
    (createProjectFromTemplate env).installLines = [] ∧
    (createProjectFromTemplate env).status = Status.Success := by
  refine ⟨?_, ?_, ?_, ?_⟩
  · simp [createProjectFromTemplate, hAbort, hClone, hPost]
  · simp only [createProjectFromTemplate, hAbort, hClone, hPost, Bool.false_eq_true, if_false]
    cases hd : env.destExists <;> cases hg : env.gitDirExists <;> simp [isExecEvent]
  · simp [createProjectFromTemplate, hAbort, hClone, hPost]
  · simp [createProjectFromTemplate, hAbort, hClone, hPost, RunResult.status, hasFailedInstall]

/-- Witness for the skipped-install theorem at a concrete run with an
empty post-install command. -/
theorem empty_postinstall_skips_install_witness :
    (createProjectFromTemplate envSkipInstall).stepLog
      = [StepEntry.cloning StepOutcome.ok, StepEntry.strippingHistory true,
         StepEntry.installSkipped] ∧
    (createProjectFromTemplate envSkipInstall).installLines = [] ∧
    (createProjectFromTemplate envSkipInstall).status = Status.Success := by
  have h := empty_postinstall_skips_install envSkipInstall (by decide) (by decide) (by decide)
  exact ⟨h.1, h.2.2.1, h.2.2.2⟩

/-- Claim C7: when the destination exists, declining the overwrite
prompt ends the run with the filesystem unchanged byte for byte, while
accepting removes the whole destination tree, and in the pipeline the
removal is the first effect and precedes the clone command. -/
theorem destination_conflict_policy (fs : FS) (dst : String) (env : RunEnv)
    (hfs : existsPath fs dst = true)
    (hDest : env.destExists = true)
    (hAns : env.overwriteAnswer = true) :
    prepareDestination fs dst OverwritePolicy.abort = (fs, PrepOutcome.destinationExists) ∧
    existsPath (prepareDestination fs dst OverwritePolicy.overwrite).1 dst = false ∧
    (createProjectFromTemplate env).events.take 2
      = [Event.removeDir env.fullProjectPath,
         Event.execCmd env.cloneCmd env.projectPath] := by
  refine ⟨?_, ?_, ?_⟩
  · simp [prepareDestination, hfs]
  · simp only [prepareDestination, hfs, if_pos]
    rw [Bool.eq_false_iff]
    intro hany
    simp only [existsPath, List.any_eq_true] at hany
    obtain ⟨e, he, hu⟩ := hany
    simp only [rmTree, List.mem_filter, Bool.not_eq_true'] at he
    rw [he.2] at hu
    exact Bool.false_ne_true hu
  · simp only [createProjectFromTemplate, hDest, hAns, Bool.and_false, Bool.not_true,
      Bool.false_eq_true, if_false]
    cases hc : env.cloneExec.errMsg with
    | some m => simp
    | none =>
      by_cases hp : env.template.postInstall = ""
      · simp [hp]
      · simp only [if_neg hp]
        cases hi : env.installExec.errMsg <;> simp

/-- Witness for the destination-conflict theorem at a concrete
filesystem and run. -/
theorem destination_conflict_policy_witness :
    prepareDestination fsDemo "/home/user/demo1" OverwritePolicy.abort
      = (fsDemo, PrepOutcome.destinationExists) ∧
    existsPath (prepareDestination fsDemo "/home/user/demo1" OverwritePolicy.overwrite).1
      "/home/user/demo1" = false ∧
    (createProjectFromTemplate envOverwrite).events.take 2
      = [Event.removeDir envOverwrite.fullProjectPath,
         Event.execCmd envOverwrite.cloneCmd envOverwrite.projectPath] :=
  destination_conflict_policy fsDemo "/home/user/demo1" envOverwrite
    (by decide) (by decide) (by decide)

theorem splitNl_ne_nil (l : List Char) : splitNl l ≠ [] := by
  cases l with
  | nil => simp [splitNl]
  | cons c cs =>
    simp only [splitNl]
    by_cases h : c = '\n'
    · simp [h]
    · rw [if_neg h]
      cases hs : splitNl cs <;> simp

theorem mem_splitNl_no_newline (l : List Char) :
    ∀ part ∈ splitNl l, '\n' ∉ part := by
  induction l with
  | nil =>
    intro part hp
    simp only [splitNl, List.mem_singleton] at hp
    simp [hp]
  | cons c cs ih =>
    intro part hp
    simp only [splitNl] at hp
    by_cases h : c = '\n'
    · rw [if_pos h] at hp
      rcases List.mem_cons.mp hp with h1 | h1
      · simp [h1]
      · exact ih part h1
    · rw [if_neg h] at hp
      cases hs : splitNl cs with
      | nil => exact absurd hs (splitNl_ne_nil cs)
      | cons l0 ls0 =>
        rw [hs] at hp
        rcases List.mem_cons.mp hp with h1 | h1
        · subst h1
          intro hmem
          rcases List.mem_cons.mp hmem with h2 | h2
          · exact h h2.symm
          · exact ih l0 (by rw [hs]; exact List.mem_cons_self _ _) h2
        · exact ih part (by rw [hs]; exact List.mem_cons_of_mem _ h1)

theorem splitNl_no_newline (l : List Char) (h : '\n' ∉ l) : splitNl l = [l] := by
  induction l with
  | nil => rfl
  | cons c cs ih =>
    simp only [splitNl]
    have hc : ¬c = '\n' := fun hc => h (by rw [hc]; exact List.mem_cons_self _ _)
    rw [if_neg hc, ih (fun hm => h (List.mem_cons_of_mem _ hm))]

theorem initSegs_append (xs ys : List (List Char)) (hy : ys ≠ []) :
    initSegs (xs ++ ys) = xs ++ initSegs ys := by
  induction xs with
  | nil => rfl
  | cons x xs ih =>
    cases hxy : xs ++ ys with
    | nil =>
      rcases List.append_eq_nil.mp hxy with ⟨_, h2⟩
      exact absurd h2 hy
    | cons z zs =>
      have h2 := ih
      rw [hxy] at h2
      simp only [List.cons_append, hxy, initSegs]
      rw [← h2]

theorem lastSeg_append (xs ys : List (List Char)) (hy : ys ≠ []) :
    lastSeg (xs ++ ys) = lastSeg ys := by
  induction xs with
  | nil => rfl
  | cons x xs ih =>
    cases hxy : xs ++ ys with
    | nil =>
      rcases List.append_eq_nil.mp hxy with ⟨_, h2⟩
      exact absurd h2 hy
    | cons z zs =>
      have h2 := ih
      rw [hxy] at h2
      simp only [List.cons_append, hxy, lastSeg]
      rw [← h2]

theorem initSegs_append_lastSeg :
    ∀ l : List (List Char), l ≠ [] → initSegs l ++ [lastSeg l] = l
  | [], h => absurd rfl h
  | [x], _ => by simp [initSegs, lastSeg]
  | x :: y :: ys, _ => by
    simp only [initSegs, lastSeg, List.cons_append]
    rw [initSegs_append_lastSeg (y :: ys) (by simp)]

theorem lastSeg_mem :
    ∀ l : List (List Char), l ≠ [] → lastSeg l ∈ l
  | [], h => absurd rfl h
  | [x], _ => by simp [lastSeg]
  | x :: y :: ys, _ => by
    simp only [lastSeg]
    exact List.mem_cons_of_mem _ (lastSeg_mem (y :: ys) (by simp))

theorem splitNl_cons_newline (cs : List Char) :
    splitNl ('\n' :: cs) = [] :: splitNl cs := by
  simp [splitNl]

theorem splitNl_cons_of_ne (c : Char) (cs : List Char) (l0 : List Char)
    (ls0 : List (List Char)) (hc : c ≠ '\n') (hs : splitNl cs = l0 :: ls0) :
    splitNl (c :: cs) = (c :: l0) :: ls0 := by
  unfold splitNl
  rw [if_neg hc, hs]

theorem splitNl_append :
    ∀ a b : List Char,
      splitNl (a ++ b)
        = initSegs (splitNl a) ++ glueHead (lastSeg (splitNl a)) (splitNl b)
  | [], b => by
    cases hs : splitNl b with
    | nil => exact absurd hs (splitNl_ne_nil b)
    | cons h t => simp [splitNl, initSegs, lastSeg, glueHead, hs]
  | c :: cs, b => by
    cases hs : splitNl cs with
    | nil => exact absurd hs (splitNl_ne_nil cs)
    | cons l0 ls0 =>
      by_cases hc : c = '\n'
      · subst hc
        rw [List.cons_append, splitNl_cons_newline (cs ++ b), splitNl_append cs b, hs,
          splitNl_cons_newline cs, hs]
        simp [initSegs, lastSeg]
      · cases hsb : splitNl b with
        | nil => exact absurd hsb (splitNl_ne_nil b)
        | cons h0 t0 =>
          have hib : splitNl (cs ++ b)
              = initSegs (l0 :: ls0) ++ glueHead (lastSeg (l0 :: ls0)) (h0 :: t0) := by
            rw [splitNl_append cs b, hs, hsb]
          cases ls0 with
          | nil =>
            have hib2 : splitNl (cs ++ b) = (l0 ++ h0) :: t0 := by
              rw [hib]
              simp [initSegs, lastSeg, glueHead]
            rw [List.cons_append, splitNl_cons_of_ne c (cs ++ b) _ _ hc hib2,
              splitNl_cons_of_ne c cs l0 [] hc hs]
            simp [initSegs, lastSeg, glueHead]
          | cons l1 ls1 =>
            have hib2 : splitNl (cs ++ b)
                = l0 :: (initSegs (l1 :: ls1)
                    ++ glueHead (lastSeg (l1 :: ls1)) (h0 :: t0)) := by
              rw [hib]
              simp [initSegs, lastSeg]
            rw [List.cons_append, splitNl_cons_of_ne c (cs ++ b) _ _ hc hib2,
              splitNl_cons_of_ne c cs l0 (l1 :: ls1) hc hs]
            simp [initSegs, lastSeg]

theorem splitNl_chain (x y : List Char) (h : '\n' ∉ x) :
    splitNl (x ++ y) = glueHead x (splitNl y) := by
  rw [splitNl_append x y, splitNl_no_newline x h]
  simp [initSegs, lastSeg]

theorem cleanLines_append (a b : List (List Char)) :
    cleanLines (a ++ b) = cleanLines a ++ cleanLines b := by
  simp [cleanLines, List.filter_append]

theorem onClose_eq_cleanLines (b : List Char) : onClose b = cleanLines [b] := by
  simp only [onClose, cleanLines, List.map_cons, List.map_nil, List.filter]
  cases h : (trimChars b).isEmpty <;> simp [h]

theorem feedChunks_spec :
    ∀ (chunks : List (List Char)) (buf : List Char), '\n' ∉ buf →
      (feedChunks buf chunks).1 = lastSeg (splitNl (buf ++ chunks.flatten)) ∧
      (feedChunks buf chunks).2 = cleanLines (initSegs (splitNl (buf ++ chunks.flatten)))
  | [], buf, hbuf => by
    simp [feedChunks, splitNl_no_newline buf hbuf, lastSeg, initSegs, cleanLines]
  | chunk :: rest, buf, hbuf => by
    have hnb : '\n' ∉ lastSeg (splitNl (buf ++ chunk)) :=
      mem_splitNl_no_newline (buf ++ chunk) _ (lastSeg_mem _ (splitNl_ne_nil _))
    obtain ⟨ih1, ih2⟩ := feedChunks_spec rest (lastSeg (splitNl (buf ++ chunk))) hnb
    have hfull : splitNl (buf ++ (chunk :: rest).flatten)
        = initSegs (splitNl (buf ++ chunk))
          ++ splitNl (lastSeg (splitNl (buf ++ chunk)) ++ rest.flatten) := by
      have h1 : buf ++ (chunk :: rest).flatten = (buf ++ chunk) ++ rest.flatten := by
        simp [List.append_assoc]
      rw [h1, splitNl_append (buf ++ chunk) rest.flatten, splitNl_chain _ rest.flatten hnb]
    constructor
    · show (feedChunks (onData buf chunk).1 rest).1 = _
      simp only [onData]
      rw [ih1, hfull, lastSeg_append _ _ (splitNl_ne_nil _)]
    · show (onData buf chunk).2 ++ (feedChunks (onData buf chunk).1 rest).2 = _
      simp only [onData]
      rw [ih2, hfull, initSegs_append _ _ (splitNl_ne_nil _), cleanLines_append]

/-- Claim C9 (counterexample): a partial trailing line consisting of
whitespace only is not flushed on close — with a single data chunk of
one space character the trailing unterminated segment is that space, yet
the run forwards nothing to the log sink. -/
theorem streamed_trailing_whitespace_dropped :
    streamedLines [[' ']] = [] ∧ lastSeg (splitNl [' ']) = [' '] ∧ [' '] ≠ ([] : List Char) :=
  ⟨rfl, rfl, by simp⟩

/-- Claim C9 (amended): output is forwarded line by line as it arrives —
after any number of data chunks exactly the completed lines of the
content so far have been logged, each trimmed, with whitespace-only
lines dropped — and once the process closes the total forwarded output
is every segment of the full content under the same trimming and
dropping, so a trailing unterminated segment is flushed exactly when it
contains non-whitespace characters. -/
theorem streamed_lines_clean (chunks : List (List Char)) :
    streamedLines chunks = cleanLines (splitNl chunks.flatten) ∧
    ∀ n, (feedChunks [] (chunks.take n)).2
        = cleanLines (initSegs (splitNl (chunks.take n).flatten)) := by
  have hmain : ∀ cs : List (List Char),
      (feedChunks [] cs).1 = lastSeg (splitNl cs.flatten) ∧
      (feedChunks [] cs).2 = cleanLines (initSegs (splitNl cs.flatten)) := by
    intro cs
    have h := feedChunks_spec cs [] (by simp)
    simpa using h
  refine ⟨?_, fun n => (hmain (chunks.take n)).2⟩
  obtain ⟨h1, h2⟩ := hmain chunks
  unfold streamedLines
  rw [h1, h2, onClose_eq_cleanLines, ← cleanLines_append,
    initSegs_append_lastSeg _ (splitNl_ne_nil _)]

theorem lookupStr_assocSet (l : List (String × Json)) (k : String) (v : Json) :
    lookupStr (assocSet l k v) k = some v := by
  induction l with
  | nil => simp [assocSet, lookupStr]
  | cons e rest ih =>
    by_cases he : e.1 = k
    · simp [assocSet, he, lookupStr]
    · simp [assocSet, he, lookupStr, ih]

/-- Claim C10: whenever any prompted field of the sidebar add-template
flow is cancelled or empty the flow returns with the persisted catalog
unchanged, and whenever the flow does change the persisted document the
written template carries the prompted non-empty post-install command —
so a template with an empty post-install can never be added through this
flow. -/
theorem addTemplateForm_guard (inp : FormInputs) (st : FileContent) :
    (anyFieldFalsy inp = true → addTemplateForm inp st = (st, AddOutcome.cancelled)) ∧
    ((addTemplateForm inp st).1 ≠ st →
      ∃ p, inp.postInstall = some p ∧ p ≠ "" ∧
        templateAt (addTemplateForm inp st).1 (inp.category.getD "") (inp.name.getD "")
          = some (newTemplate inp)) := by
  constructor
  · intro h
    simp [addTemplateForm, h]
  · intro hne
    by_cases hf : anyFieldFalsy inp = true
    · exact absurd (by simp [addTemplateForm, hf]) hne
    · have hpi : ∃ p, inp.postInstall = some p ∧ p ≠ "" := by
        rcases hp : inp.postInstall with _ | p
        · exact absurd (by simp [anyFieldFalsy, jsFalsy, hp]) hf
        · refine ⟨p, rfl, ?_⟩
          intro hpe
          exact hf (by simp [anyFieldFalsy, jsFalsy, hp, hpe])
      obtain ⟨p, hp, hpe⟩ := hpi
      refine ⟨p, hp, hpe, ?_⟩
      rw [Bool.not_eq_true] at hf
      cases st with
      | malformed raw => exact absurd (by simp [addTemplateForm, hf]) hne
      | wellFormed j =>
        cases j with
        | obj entries =>
          simp only [addTemplateForm, hf, Bool.false_eq_true, if_false]
          cases hl : lookupStr entries (inp.category.getD "") with
          | none =>
            simp only [templateAt, lookupStr_assocSet]
            exact decodeTemplate_encodeTemplate _
          | some v =>
            cases v with
            | obj temps =>
              simp only [templateAt, lookupStr_assocSet]
              exact decodeTemplate_encodeTemplate _
            | null =>
              simp [jsTruthy, templateAt, lookupStr_assocSet, decodeTemplate_encodeTemplate]
            | bool bv =>
              cases bv with
              | false =>
                simp [jsTruthy, templateAt, lookupStr_assocSet,
                  decodeTemplate_encodeTemplate]
              | true =>
                exact absurd (by simp [addTemplateForm, hf, hl, jsTruthy]) hne
            | num nv =>
              by_cases hz : nv = 0
              · subst hz
                simp [jsTruthy, templateAt, lookupStr_assocSet,
                  decodeTemplate_encodeTemplate]
              · exact absurd (by simp [addTemplateForm, hf, hl, jsTruthy, hz]) hne
            | str sv =>
              by_cases hz : sv = ""
              · subst hz
                simp [jsTruthy, templateAt, lookupStr_assocSet,
                  decodeTemplate_encodeTemplate]
              · exact absurd (by simp [addTemplateForm, hf, hl, jsTruthy, hz]) hne
            | arr xs =>
              exact absurd (by simp [addTemplateForm, hf, hl, jsTruthy]) hne
        | null => exact absurd (by simp [addTemplateForm, hf]) hne
        | bool bv => exact absurd (by simp [addTemplateForm, hf]) hne
        | num nv => exact absurd (by simp [addTemplateForm, hf]) hne
        | str sv => exact absurd (by simp [addTemplateForm, hf]) hne
        | arr xs => exact absurd (by simp [addTemplateForm, hf]) hne

/-- Witness for the add-template guard at concrete inputs: an empty
post-install answer leaves the catalog unchanged, and a fully answered
form writes its template with a non-empty post-install command. -/
theorem addTemplateForm_guard_witness :
    addTemplateForm formEmptyPostInstall (FileContent.wellFormed (Json.obj []))
      = (FileContent.wellFormed (Json.obj []), AddOutcome.cancelled) ∧
    ∃ p, formAddInputs.postInstall = some p ∧ p ≠ "" ∧
      templateAt (addTemplateForm formAddInputs (FileContent.wellFormed (Json.obj []))).1
        (formAddInputs.category.getD "") (formAddInputs.name.getD "")
        = some (newTemplate formAddInputs) := by
  constructor
  · exact (addTemplateForm_guard formEmptyPostInstall
      (FileContent.wellFormed (Json.obj []))).1 (by decide)
  · refine (addTemplateForm_guard formAddInputs (FileContent.wellFormed (Json.obj []))).2 ?_
    intro heq
    simp [addTemplateForm, anyFieldFalsy, jsFalsy, formAddInputs, lookupStr, assocSet] at heq

end CreateIt
